import Mathlib

/-!
Shallow embedding of the syngene SOP-verification engine.

The embedding covers, faithfully to the Python source:
- the data model (`Requirement`, `Chunk`, `Gap`) produced by
  `RequirementNormalizer` and consumed by `SOPVerifier`;
- `RequirementNormalizer.normalize_text` / `_parse_response`
  (src/ingestion/normalizer.py), with the text-completion service's reply
  abstracted into the outcome type `ServiceOutcome` (the JSON parse of the
  raw reply is modelled by `ParseOutcome`: a reply that parses to a JSON
  list, to a non-list value, or fails to parse);
- `RequirementEmbedder.embed_requirements` (src/ingestion/embedder.py),
  with the embedding provider's batch reply abstracted into
  `Option (List (List Rat))` (`none` = the provider raised);
- `SOPVerifier.ingest_sop`, `_search_sop`, `_llm_validation` and
  `verify_documents` (src/verification/verifier.py);
- the tab-2 hard-rule pipeline of src/app2.py (`tab2_run`).

Floating-point numbers are modelled by exact rationals; the square root in
`np.linalg.norm` is modelled by `sqrtQ`, exact on perfect squares (every
concrete input used below has a perfect-square sum of squares, where the
float computation is also exact).  `np.argsort` (default kind quicksort,
implemented by numpy as introsort) is modelled by the stable insertion
argsort `argsortAsc`: a whole array of at most 16 elements falls below
numpy's insertion-sort cutoff and is sorted by a stable insertion sort,
so the model is exact there; on larger arrays numpy's order among equal
elements is unspecified and the model fixes the stable order as one
admissible outcome, so tie-order theorems are stated only for score
arrays of at most 16 entries.  `np.dot` raises on misaligned shapes;
fallible operations therefore return `Except`.
-/

namespace Syngene

/-- A reference requirement record as produced by the normalizer and
enriched with an `embedding` field by the embedder (a JSON dict in the
source; every field below is written by `normalize_text`). -/
structure Requirement where
  requirement_id : String
  full_requirement_text : String
  original_text : String
  mandatory_level : String
  source_document : String
  page_number : Int
  embedding : List ℚ
  deriving DecidableEq, Repr

/-- An SOP evidence chunk as built by `ingest_sop` (fields of the
`sop_items` dicts plus the `embedding` written by the embedder). -/
structure Chunk where
  full_requirement_text : String
  text : String
  page : Int
  source : String
  embedding : List ℚ
  deriving DecidableEq, Repr

instance : Inhabited Chunk := ⟨⟨"", "", 0, "", []⟩⟩

/-- A gap record as appended by `verify_documents` (lines 151-160 of
verifier.py). -/
structure Gap where
  requirement_id : String
  status : String
  reference_requirement : String
  reference_context : String
  reference_source : String
  severity : String
  sop_evidence : String
  justification : String
  deriving DecidableEq, Repr

/-- One entry of the list returned by `_search_sop`: a chunk together with
its similarity score. -/
structure SearchResult where
  chunk : Chunk
  score : ℚ
  deriving DecidableEq, Repr

/-! ## Numeric helpers

Rational arithmetic is written through the kernel-evaluable wrappers
`qAdd`, `qMul`, `qInv`, `qDiv`, `qSum` (the library's `Rat.add` etc. are
`@[irreducible]`, which would make every concrete run of the model
impossible to evaluate); the bridge lemmas `qAdd_eq` … `qSum_eq` below
prove each wrapper equal to the corresponding standard operation on `ℚ`.
-/

/-- Kernel-evaluable rational addition; equals `a + b` (see `qAdd_eq`). -/
def qAdd (a b : ℚ) : ℚ := mkRat (a.num * b.den + b.num * a.den) (a.den * b.den)

/-- Kernel-evaluable rational multiplication; equals `a * b` (see
`qMul_eq`). -/
def qMul (a b : ℚ) : ℚ := mkRat (a.num * b.num) (a.den * b.den)

/-- Kernel-evaluable rational inverse; equals `a⁻¹` (see `qInv_eq`). -/
def qInv (a : ℚ) : ℚ :=
  if a.num < 0 then mkRat (-(a.den : Int)) a.num.natAbs
  else mkRat (a.den : Int) a.num.natAbs

/-- Kernel-evaluable rational division; equals `a / b` (see `qDiv_eq`). -/
def qDiv (a b : ℚ) : ℚ := qMul a (qInv b)

/-- Kernel-evaluable sum of a list of rationals; equals `List.sum` (see
`qSum_eq`). -/
def qSum (l : List ℚ) : ℚ := l.foldr qAdd 0

/-- Dot product of two vectors (`np.dot` on aligned one-dimensional
arrays). -/
def dotQ (a b : List ℚ) : ℚ := qSum (List.zipWith qMul a b)

/-- Sum of squares of a vector's entries. -/
def sumSq (v : List ℚ) : ℚ := qSum (v.map (fun x => qMul x x))

/-- Kernel-evaluable integer square root by Newton iteration (the
library's `Nat.sqrt` is defined by well-founded recursion, which the
kernel cannot evaluate): one contraction step with a fuel bound. -/
def isqrtGo (n : Nat) : Nat → Nat → Nat
  | 0, g => g
  | fuel + 1, g =>
    let g' := (g + n / g) / 2
    if g' < g then isqrtGo n fuel g' else g

/-- Kernel-evaluable integer square root (floor). -/
def isqrt (n : Nat) : Nat := if n = 0 then 0 else isqrtGo n n n

/-- Rational model of the floating-point square root: exact whenever the
numerator and denominator are perfect squares (in particular on every
concrete input used in this development, where the float computation is
exact as well). -/
def sqrtQ (q : ℚ) : ℚ := mkRat (isqrt q.num.toNat : Int) (isqrt q.den)

/-- The `1e-10` denominator guard used by both normalization sites in the
source. -/
def eps : ℚ := mkRat 1 (10 ^ 10)

/-- Unit normalization `v / (np.linalg.norm(v) + 1e-10)` (verifier.py
lines 100-101 for matrix rows, line 169 for the query vector). -/
def normVec (v : List ℚ) : List ℚ :=
  v.map (fun x => qDiv x (qAdd (sqrtQ (sumSq v)) eps))

/-- Two-digit zero-padding of a nonnegative integer below 100. -/
def pad2 (n : Int) : String := if n < 10 then "0" ++ toString n else toString n

/-- Model of Python's two-decimal formatting `f"{x:.2f}"` on exact
rationals (round-to-nearest on the scaled value; the model rounds exact
halves up, a case no concrete value below meets). -/
def fmt2 (q : ℚ) : String :=
  let s := if q < 0 then "-" else ""
  let a : ℚ := if q < 0 then -q else q
  let c : Int := Rat.floor (qAdd (qMul a (mkRat 100 1)) (mkRat 1 2))
  s ++ toString (c / 100) ++ "." ++ pad2 (c % 100)

/-! ## Retrieval (`_search_sop`) -/

/-- One insertion step of the stable ascending argsort: index `x` is
placed after every already-present index whose score is ≤ its own, so
equal scores keep their insertion order. -/
def insertIdx (s : List ℚ) (x : Nat) : List Nat → List Nat
  | [] => [x]
  | y :: ys =>
    if s.getD y 0 ≤ s.getD x 0 then y :: insertIdx s x ys else x :: y :: ys

/-- Stable ascending argsort of a score list, modelling
`np.argsort(scores)` with the default quicksort kind.  numpy implements
that kind as introsort with an insertion-sort cutoff: an array of at
most 16 elements is sorted in one stable insertion-sort pass, where this
model is exact; for larger arrays numpy's tie order is unspecified and
this model fixes the stable order as one admissible outcome (theorems
about tie order are therefore restricted to at most 16 scores). -/
def argsortAsc (s : List ℚ) : List Nat :=
  (List.range s.length).foldl (fun acc i => insertIdx s i acc) []

/-- `np.argsort(scores)[-top_k:][::-1]` (verifier.py line 175). -/
def topIdx (s : List ℚ) (top_k : Nat) : List Nat :=
  ((argsortAsc s).drop (s.length - top_k)).reverse

/-- `SOPVerifier._search_sop` (verifier.py lines 164-183).  The stored
matrix rows are already unit-normalized by `ingest_sop`; the query vector
is normalized here.  `np.dot` raises a shapes-not-aligned `ValueError`
when the query's length differs from the row length of a non-empty
matrix; that exception is modelled by `Except.error`.  Note that the
result indices address the *filtered* matrix but are used to subscript
the *unfiltered* `sop_store` list, exactly as in the source. -/
def search_sop (store : List Chunk) (matrix : List (List ℚ))
    (query_vec : List ℚ) (top_k : Nat) : Except String (List SearchResult) :=
  if matrix = [] then Except.ok []
  else
    let qn := normVec query_vec
    if matrix.all (fun row => row.length = qn.length) then
      let scores := matrix.map (fun row => dotQ row qn)
      Except.ok ((topIdx scores top_k).map
        (fun idx => { chunk := store.getD idx default, score := scores.getD idx 0 }))
    else Except.error "shapes not aligned"

/-! ## Adjudication (`_llm_validation`) and the decision policy -/

/-- The three ways `_llm_validation` can conclude, abstracting the Bedrock
reply: a JSON object was located and parsed (with each field present or
absent, as read by `data.get`), no opening brace was found in the cleaned
text, or the invocation kept raising until the retry ceiling. -/
inductive LLMOutcome where
  | parsed (status justification sop_evidence : Option String)
  | unparsable (clean_text : String)
  | failed
  deriving DecidableEq, Repr

/-- `SOPVerifier._llm_validation` (verifier.py lines 258-289), given the
invocation outcome: field defaults (`MISSING` / `LLM parsed.` /
`Not Found`), coercion of an out-of-vocabulary status to `MISSING`, and
the unparsable / exhausted-retries fallbacks. -/
def llm_validation (o : LLMOutcome) : String × String × String :=
  match o with
  | LLMOutcome.parsed st j ev =>
    let status := st.getD "MISSING"
    let justification := j.getD "LLM parsed."
    let sop_evidence := ev.getD "Not Found"
    let status :=
      if status = "PRESENT" ∨ status = "PARTIAL" ∨ status = "MISSING" then status
      else "MISSING"
    (status, justification, sop_evidence)
  | LLMOutcome.unparsable t =>
    ("MISSING", "LLM output unparseable: " ++ t.take 50, "Not Found")
  | LLMOutcome.failed => ("MISSING", "LLM Error.", "Not Found")

/-- The low-similarity threshold `0.35` of verifier.py line 134. -/
def threshold : ℚ := mkRat 35 100

/-- `relevant_chunks[0]['score'] if relevant_chunks else 0`
(verifier.py line 125). -/
def bestOf (relevant : List SearchResult) : ℚ :=
  match relevant with
  | [] => 0
  | r :: _ => r.score

/-- The per-requirement decision logic of `verify_documents` (verifier.py
lines 125-147): the below-threshold auto-MISSING branch, the dispatch to
the adjudicator, and the PRESENT-without-evidence enforcement downgrade.
The fourth component counts adjudicator invocations (0 or 1). -/
def decisionPolicy (relevant : List SearchResult) (adjOut : LLMOutcome) :
    String × String × String × Nat :=
  let best := bestOf relevant
  if relevant = [] ∨ best < threshold then
    ("MISSING",
     "No relevant SOP sections found (Max Similarity: " ++ fmt2 best ++ ").",
     "Not Found", 0)
  else
    let r := llm_validation adjOut
    if r.1 = "PRESENT" ∧ (r.2.2 = "" ∨ r.2.2 = "Not Found") then
      ("MISSING",
       "LLM returned PRESENT but provided no SOP evidence. treated as MISSING.",
       "Not Found", 1)
    else (r.1, r.2.1, r.2.2, 1)

/-- The gap dict appended at verifier.py lines 151-160. -/
def mkGap (req : Requirement) (st j ev : String) : Gap :=
  { requirement_id := req.requirement_id
    status := st
    reference_requirement := req.full_requirement_text
    reference_context := req.original_text
    reference_source :=
      req.source_document ++ " (Page " ++ toString req.page_number ++ ")"
    severity := req.mandatory_level
    sop_evidence := ev
    justification := j }

/-- A deterministic adjudicator: the Bedrock invocation outcome as a
function of the requirement text and the retrieved chunks (the two inputs
from which `_llm_validation` builds its prompt). -/
def Adjudicator : Type := String → List SearchResult → LLMOutcome

/-- The main loop of `verify_documents` over the reference index, in
index order.  A retrieval exception aborts the run (propagates out of the
loop, as in the source); the second component counts the adjudicator
calls made before the loop finished or aborted. -/
def verifyLoop (store : List Chunk) (matrix : List (List ℚ)) (adj : Adjudicator) :
    List Requirement → Except String (List Gap) × Nat
  | [] => (Except.ok [], 0)
  | req :: rest =>
    match search_sop store matrix req.embedding 3 with
    | Except.error e => (Except.error e, 0)
    | Except.ok relevant =>
      let d := decisionPolicy relevant (adj req.full_requirement_text relevant)
      let tail := verifyLoop store matrix adj rest
      (match tail.1 with
       | Except.error e => Except.error e
       | Except.ok gaps =>
         Except.ok (if d.1 = "MISSING" ∨ d.1 = "PARTIAL" then
           mkGap req d.1 d.2.1 d.2.2.1 :: gaps else gaps),
       d.2.2.2 + tail.2)

/-- `SOPVerifier.verify_documents` (verifier.py lines 107-162), including
the initial not-initialized guard (line 111). -/
def verify_documents (index : List Requirement) (store : List Chunk)
    (matrix : List (List ℚ)) (adj : Adjudicator) :
    Except String (List Gap) × Nat :=
  if index = [] ∨ store = [] then
    (Except.error "Reference Index or SOP Store not initialized.", 0)
  else verifyLoop store matrix adj index

/-! ## Ingestion (`ingest_sop`, `embed_requirements`) -/

/-- A raw chunk as returned by `DocumentParser.parse_file`. -/
structure RawChunk where
  text : String
  page : Int
  source : String
  deriving DecidableEq, Repr

/-- The `sop_items` dict built at verifier.py lines 83-89. -/
def chunkOf (rc : RawChunk) : Chunk :=
  { full_requirement_text := rc.text
    text := rc.text
    page := rc.page
    source := rc.source
    embedding := [] }

/-- `RequirementEmbedder.embed_requirements` (embedder.py lines 15-34),
with the provider's batch reply abstracted: `some embs` is a successful
`model.encode` returning one vector per text (an under-length reply makes
the assignment loop raise, landing in the same except branch); `none` is
a raising provider.  In the except branch every item gets the
empty-vector sentinel. -/
def embed_requirements (items : List Chunk) (embOut : Option (List (List ℚ))) :
    List Chunk :=
  match embOut with
  | some embs =>
    if items.length ≤ embs.length then
      List.zipWith (fun c e => { c with embedding := e }) items embs
    else items.map (fun c => { c with embedding := [] })
  | none => items.map (fun c => { c with embedding := [] })

/-- `SOPVerifier.ingest_sop` (verifier.py lines 74-105): build the store,
filter out items with an empty (falsy) embedding, and unit-normalize the
remaining rows into the search matrix.  Returns `(sop_store,
sop_embeddings_matrix)`. -/
def ingest_sop (raw : List RawChunk) (embOut : Option (List (List ℚ))) :
    List Chunk × List (List ℚ) :=
  let store := embed_requirements (raw.map chunkOf) embOut
  let embeddings :=
    store.filterMap (fun c => if c.embedding = [] then none else some c.embedding)
  (store, embeddings.map normVec)

/-! ## The tab-2 pipeline of app2.py -/

/-- Whether `pat` occurs contiguously in `l` (Python's `pat in s` on
strings), head test. -/
def leadsWith : List Char → List Char → Bool
  | [], _ => true
  | _ :: _, [] => false
  | a :: as, b :: bs => a = b && leadsWith as bs

/-- Whether `pat` occurs contiguously anywhere in the list. -/
def hasSub (pat : List Char) : List Char → Bool
  | [] => pat.isEmpty
  | c :: cs => leadsWith pat (c :: cs) || hasSub pat cs

/-- Python's substring test `pat in s`. -/
def strContains (s pat : String) : Bool := hasSub pat.data s.data

/-- Observable side effects of a tab-2 run: evidence ingestion and
adjudicator calls. -/
inductive RunEvent where
  | ingested
  | adjudicated
  deriving DecidableEq, Repr

/-- The tab-2 verification pipeline of src/app2.py (lines 144-171): load
(the index argument), the two hard-rule checks (empty index at line 152,
`"FAIL" in requirement_id` at line 156, each followed by `st.stop()`),
then `ingest_sop` and `verify_documents`.  The event list records the
ingestion and every adjudicator call actually made. -/
def tab2_run (index : List Requirement) (raw : List RawChunk)
    (embOut : Option (List (List ℚ))) (adj : Adjudicator) :
    Except String (List Gap) × List RunEvent :=
  if index = [] then (Except.error "Critical Error: Reference Index is empty.", [])
  else if index.any (fun r => strContains r.requirement_id "FAIL") then
    (Except.error "Critical Error: Found Failed Normalizations.", [])
  else
    let im := ingest_sop raw embOut
    let v := verify_documents index im.1 im.2 adj
    (v.1, RunEvent.ingested :: List.replicate v.2 RunEvent.adjudicated)

/-! ## Normalizer (`normalize_text`) -/

/-- The `source_meta` dict fields read by `normalize_text` (`source` and
`page`, via `.get` with defaults). -/
structure SourceMeta where
  source : String
  page : Int
  deriving DecidableEq, Repr

/-- One element of the JSON list returned by the decomposition service:
either an object (with each of the two fields present or absent, as read
by `req.get`) or a bare string (on which `req.get` raises
`AttributeError`). -/
inductive JItem where
  | obj (requirement_text severity : Option String)
  | strItem (s : String)
  deriving DecidableEq, Repr

/-- The `json.loads` outcome on the cleaned service reply: a JSON list;
an iterable non-list — a dict, which `enumerate` walks by its keys, or a
string, walked by its characters, in both cases yielding string items —
recorded by those string items; a non-iterable scalar (number, boolean
or null), over which `enumerate` raises `TypeError`; or a parse failure
(which includes a bare `NORMALIZATION_FAILED` reply, since that text
contains no JSON). -/
inductive ParseOutcome where
  | jsonList (items : List JItem)
  | jsonIter (keys : List String)
  | jsonScalar
  | unparsable
  deriving DecidableEq, Repr

/-- Outcome of `_invoke_bedrock`: a reply (to be parsed), or an exception
after the retry ceiling. -/
inductive ServiceOutcome where
  | raised
  | returned (out : ParseOutcome)
  deriving DecidableEq, Repr

/-- Return type of `_parse_response`, as seen by the enrichment loop: a
list of items; an iterable non-list whose enumeration yields the given
string items; or a non-iterable scalar. -/
inductive ParseResult where
  | list (items : List JItem)
  | iter (keys : List String)
  | scalar
  deriving DecidableEq, Repr

/-- `RequirementNormalizer._parse_response` (normalizer.py lines
137-156): any successfully parsed value is returned as-is, and a parse
failure is caught and turned into the empty list. -/
def parse_response : ParseOutcome → ParseResult
  | ParseOutcome.jsonList items => ParseResult.list items
  | ParseOutcome.jsonIter keys => ParseResult.iter keys
  | ParseOutcome.jsonScalar => ParseResult.scalar
  | ParseOutcome.unparsable => ParseResult.list []

/-- The terminal DecompositionFailure record built in the except branch
of `normalize_text` (normalizer.py lines 61-68). -/
def failRequirement (text_chunk : String) (meta : SourceMeta) : Requirement :=
  { requirement_id := meta.source ++ "-" ++ toString meta.page ++ "-FAIL"
    full_requirement_text := "FAILED TO NORMALIZE: " ++ text_chunk.take 50 ++ "..."
    original_text := text_chunk
    mandatory_level := "UNKNOWN"
    source_document := meta.source
    page_number := meta.page
    embedding := [] }

/-- Enrichment of one parsed item (normalizer.py lines 41-56).  A bare
string raises (`req.get` on a `str`), modelled by `none`. -/
def enrichItem (text_chunk : String) (meta : SourceMeta) (i : Nat) :
    JItem → Option Requirement
  | JItem.obj rt sev => some
    { requirement_id :=
        meta.source ++ "-" ++ toString meta.page ++ "-" ++ toString (i + 1)
      full_requirement_text := rt.getD ""
      original_text := text_chunk
      mandatory_level := sev.getD "SHOULD"
      source_document := meta.source
      page_number := meta.page
      embedding := [] }
  | JItem.strItem _ => none

/-- The enrichment loop: the first raising item aborts the whole
enrichment (the exception lands in the outer except branch). -/
def enrichFrom (text_chunk : String) (meta : SourceMeta) :
    Nat → List JItem → Option (List Requirement)
  | _, [] => some []
  | i, item :: rest =>
    match enrichItem text_chunk meta i item with
    | none => none
    | some r =>
      match enrichFrom text_chunk meta (i + 1) rest with
      | none => none
      | some rs => some (r :: rs)

/-- `RequirementNormalizer.normalize_text` (normalizer.py lines 29-68):
invoke the service, parse, enrich.  An exception along the way — service
retry exhaustion, `enumerate` over a non-iterable scalar, or `req.get`
on a string item (a bare string inside a list, or the first enumerated
key/character of a non-empty dict or string reply) — yields the single
terminal failure record.  A caught JSON parse failure yields the empty
item list, and an empty non-list iterable (an empty dict or empty
string) enumerates zero times; both return an empty result. -/
def normalize_text (text_chunk : String) (meta : SourceMeta)
    (svc : ServiceOutcome) : List Requirement :=
  match svc with
  | ServiceOutcome.raised => [failRequirement text_chunk meta]
  | ServiceOutcome.returned pout =>
    match parse_response pout with
    | ParseResult.scalar => [failRequirement text_chunk meta]
    | ParseResult.iter keys =>
      match enrichFrom text_chunk meta 0 (keys.map JItem.strItem) with
      | none => [failRequirement text_chunk meta]
      | some reqs => reqs
    | ParseResult.list items =>
      match enrichFrom text_chunk meta 0 items with
      | none => [failRequirement text_chunk meta]
      | some reqs => reqs

/-! ## Derived notions and sample data used by the theorems -/

/-- The ascending order obtained by the stable argsort of a score list:
strictly smaller score first, equal scores in (ascending) index order. -/
def ascLex (s : List ℚ) (a b : Nat) : Prop :=
  s.getD a 0 < s.getD b 0 ∨ (s.getD a 0 = s.getD b 0 ∧ a < b)

/-- The score vector computed inside `_search_sop`: dot product of every
matrix row against the unit-normalized query. -/
def searchScores (matrix : List (List ℚ)) (q : List ℚ) : List ℚ :=
  matrix.map fun row => dotQ row (normVec q)

/-- Sample reference requirement used by concrete witnesses. -/
def sampleReq : Requirement :=
  { requirement_id := "REF-1-1"
    full_requirement_text := "The Investigator should be qualified by education."
    original_text := "The Investigator should be qualified by education, training, and experience."
    mandatory_level := "SHOULD"
    source_document := "REF"
    page_number := 1
    embedding := [1] }

/-- A reference requirement carrying the empty-vector embedding sentinel
(as recorded by the embedder's failure branch). -/
def sentinelReq : Requirement :=
  { requirement_id := "REF-1-2"
    full_requirement_text := "The Investigator should be qualified by training."
    original_text := "The Investigator should be qualified by education, training, and experience."
    mandatory_level := "SHOULD"
    source_document := "REF"
    page_number := 1
    embedding := [] }

/-- Sample evidence chunk used by concrete witnesses. -/
def sampleChunk : Chunk :=
  { full_requirement_text := "qualified by education"
    text := "qualified by education"
    page := 1
    source := "sop.pdf"
    embedding := [1] }

/-- Sample raw parsed chunk used by concrete witnesses. -/
def sampleRaw : RawChunk := { text := "Training records are kept.", page := 2, source := "sop.pdf" }

/-- First raw chunk of the tie-order scenario. -/
def rawA : RawChunk := { text := "Records are archived.", page := 1, source := "sop.pdf" }

/-- Second raw chunk of the tie-order scenario. -/
def rawB : RawChunk := { text := "Training is provided to staff.", page := 2, source := "sop.pdf" }

end Syngene

namespace Syngene

/-! ## Bridge lemmas for the kernel-evaluable rational operations -/

theorem qAdd_eq (a b : ℚ) : qAdd a b = a + b := by
  have ha : (a.den : ℚ) ≠ 0 := Nat.cast_ne_zero.mpr (Rat.den_ne_zero a)
  have hb : (b.den : ℚ) ≠ 0 := Nat.cast_ne_zero.mpr (Rat.den_ne_zero b)
  rw [qAdd, Rat.mkRat_eq_div]
  push_cast
  conv_rhs => rw [← Rat.num_div_den a, ← Rat.num_div_den b]
  field_simp

theorem qMul_eq (a b : ℚ) : qMul a b = a * b := by
  rw [qMul, Rat.mkRat_eq_div]
  push_cast
  conv_rhs => rw [← Rat.num_div_den a, ← Rat.num_div_den b]
  rw [div_mul_div_comm]

theorem qInv_eq (a : ℚ) : qInv a = a⁻¹ := by
  have hinv : a⁻¹ = ((a.den : ℤ) : ℚ) / ((a.num : ℤ) : ℚ) := by
    rw [Rat.inv_def', Rat.divInt_eq_div]
  rcases lt_trichotomy a.num 0 with h | h | h
  · rw [qInv, if_pos h, Rat.mkRat_eq_div, hinv, Int.cast_natAbs, abs_of_neg h]
    push_cast
    rw [neg_div_neg_eq]
  · have ha : a = 0 := by
      rwa [Rat.num_eq_zero] at h
    simp [qInv, ha, Rat.mkRat_eq_div]
  · rw [qInv, if_neg (not_lt.mpr h.le), Rat.mkRat_eq_div, hinv, Int.cast_natAbs,
      abs_of_pos h]

theorem qDiv_eq (a b : ℚ) : qDiv a b = a / b := by
  rw [qDiv, qMul_eq, qInv_eq, div_eq_mul_inv]

theorem qSum_eq (l : List ℚ) : qSum l = l.sum := by
  induction l with
  | nil => rfl
  | cons x xs ih => rw [qSum, List.foldr_cons, qAdd_eq, List.sum_cons, ← qSum, ih]

/-! ## Theorems about the decision policy -/

/-- C1: if the adjudicator returns PRESENT with an empty or "Not Found"
evidence excerpt, the decision step downgrades the result to MISSING with
the inconsistency justification; consequently a final PRESENT status
always carries a non-trivial evidence excerpt. -/
theorem presentRequiresEvidence (relevant : List SearchResult) (adjOut : LLMOutcome) :
    ((llm_validation adjOut).1 = "PRESENT" →
      ((llm_validation adjOut).2.2 = "" ∨ (llm_validation adjOut).2.2 = "Not Found") →
      ¬(relevant = [] ∨ bestOf relevant < threshold) →
      (decisionPolicy relevant adjOut).1 = "MISSING" ∧
        (decisionPolicy relevant adjOut).2.1 =
          "LLM returned PRESENT but provided no SOP evidence. treated as MISSING." ∧
        (decisionPolicy relevant adjOut).2.2.1 = "Not Found") ∧
    ((decisionPolicy relevant adjOut).1 = "PRESENT" →
      (decisionPolicy relevant adjOut).2.2.1 ≠ "" ∧
        (decisionPolicy relevant adjOut).2.2.1 ≠ "Not Found") := by
  constructor
  · intro hst hev hnot
    simp [decisionPolicy, if_neg hnot, hst, hev]
  · intro h
    by_cases hlow : relevant = [] ∨ bestOf relevant < threshold
    · simp [decisionPolicy, hlow] at h
    · simp only [decisionPolicy, if_neg hlow] at h ⊢
      by_cases henf : (llm_validation adjOut).1 = "PRESENT" ∧
          ((llm_validation adjOut).2.2 = "" ∨ (llm_validation adjOut).2.2 = "Not Found")
      · simp [henf] at h
      · simp only [if_neg henf] at h ⊢
        push_neg at henf
        exact henf h

/-- Witness for C1 at a concrete adjudicator reply. -/
theorem presentRequiresEvidence_witness :
    (decisionPolicy [{ chunk := default, score := 1 }]
        (LLMOutcome.parsed (some "PRESENT") none (some ""))).1 = "MISSING" :=
  ((presentRequiresEvidence [{ chunk := default, score := 1 }]
      (LLMOutcome.parsed (some "PRESENT") none (some ""))).1
    (by decide) (Or.inl (by decide)) (by decide)).1

/-- C4: a best retrieval score strictly below the 0.35 threshold (or an
empty retrieval) yields MISSING with zero adjudicator calls and a
justification citing the maximum score; a non-empty retrieval whose best
score is at least the threshold (including exactly the threshold) makes
exactly one adjudicator call. -/
theorem lowThresholdRouting (relevant : List SearchResult) (adjOut : LLMOutcome) :
    ((relevant = [] ∨ bestOf relevant < threshold) →
      decisionPolicy relevant adjOut =
        ("MISSING",
         "No relevant SOP sections found (Max Similarity: " ++ fmt2 (bestOf relevant) ++ ").",
         "Not Found", 0)) ∧
    (relevant ≠ [] → threshold ≤ bestOf relevant →
      (decisionPolicy relevant adjOut).2.2.2 = 1) := by
  constructor
  · intro hlow
    simp [decisionPolicy, hlow]
  · intro hne hge
    have hnot : ¬(relevant = [] ∨ bestOf relevant < threshold) := by
      push_neg
      exact ⟨hne, hge⟩
    simp only [decisionPolicy, if_neg hnot]
    by_cases henf : (llm_validation adjOut).1 = "PRESENT" ∧
        ((llm_validation adjOut).2.2 = "" ∨ (llm_validation adjOut).2.2 = "Not Found")
    · simp [henf]
    · simp [henf]

/-- Witness for C4: a best score exactly at the threshold dispatches to
the adjudicator, while an empty retrieval auto-reports MISSING. -/
theorem lowThresholdRouting_witness :
    (decisionPolicy [{ chunk := default, score := mkRat 35 100 }] LLMOutcome.failed).2.2.2 = 1 ∧
    decisionPolicy [] LLMOutcome.failed =
      ("MISSING", "No relevant SOP sections found (Max Similarity: 0.00).",
       "Not Found", 0) := by
  refine ⟨(lowThresholdRouting [{ chunk := default, score := mkRat 35 100 }]
    LLMOutcome.failed).2 (by decide) (by decide), ?_⟩
  rw [(lowThresholdRouting [] LLMOutcome.failed).1 (Or.inl rfl)]
  decide

/-- C9: the decision policy is monotonic in the best retrieval score:
with the adjudicator outcome held fixed, raising the best score of a
non-empty retrieval never turns a PRESENT verdict into anything else (in
particular never into MISSING). -/
theorem decisionMonotonic (r1 r2 : List SearchResult) (adjOut : LLMOutcome)
    (h2 : r2 ≠ []) (hle : bestOf r1 ≤ bestOf r2)
    (hp : (decisionPolicy r1 adjOut).1 = "PRESENT") :
    (decisionPolicy r2 adjOut).1 = "PRESENT" := by
  by_cases hlow : r1 = [] ∨ bestOf r1 < threshold
  · simp [decisionPolicy, hlow] at hp
  · push_neg at hlow
    have hnot2 : ¬(r2 = [] ∨ bestOf r2 < threshold) := by
      push_neg
      exact ⟨h2, le_trans hlow.2 hle⟩
    have hnot1 : ¬(r1 = [] ∨ bestOf r1 < threshold) := by
      push_neg
      exact hlow
    simp only [decisionPolicy, if_neg hnot1] at hp
    simp only [decisionPolicy, if_neg hnot2]
    by_cases henf : (llm_validation adjOut).1 = "PRESENT" ∧
        ((llm_validation adjOut).2.2 = "" ∨ (llm_validation adjOut).2.2 = "Not Found")
    · simp [henf] at hp
    · simpa [henf] using hp

/-! ## Theorems about the verification loop -/

/-- Every gap accumulated by a successful verification loop carries the
decision status that produced it, which passed the
MISSING-or-PARTIAL accumulation test. -/
theorem verifyLoop_status (store : List Chunk) (matrix : List (List ℚ))
    (adj : Adjudicator) :
    ∀ (reqs : List Requirement) (gaps : List Gap) (n : Nat),
      verifyLoop store matrix adj reqs = (Except.ok gaps, n) →
      ∀ g ∈ gaps, g.status = "PARTIAL" ∨ g.status = "MISSING" := by
  intro reqs
  induction reqs with
  | nil =>
    intro gaps n h g hg
    simp only [verifyLoop, Prod.mk.injEq, Except.ok.injEq] at h
    rw [← h.1] at hg
    cases hg
  | cons req rest ih =>
    intro gaps n h g hg
    cases hs : search_sop store matrix req.embedding 3 with
    | error e => simp [verifyLoop, hs] at h
    | ok relevant =>
      simp only [verifyLoop, hs] at h
      rcases hrest : verifyLoop store matrix adj rest with ⟨res, m⟩
      rw [hrest] at h
      cases res with
      | error e => simp at h
      | ok gaps' =>
        simp only [Prod.mk.injEq, Except.ok.injEq] at h
        rw [← h.1] at hg
        set d := decisionPolicy relevant (adj req.full_requirement_text relevant) with hd
        by_cases hc : d.1 = "MISSING" ∨ d.1 = "PARTIAL"
        · rw [if_pos hc] at hg
          rcases List.mem_cons.mp hg with hg | hg
          · rw [hg]
            simp only [mkGap]
            exact hc.symm
          · exact ih gaps' m (by rw [hrest]) g hg
        · rw [if_neg hc] at hg
          exact ih gaps' m (by rw [hrest]) g hg

/-- C3: whenever `verify_documents` completes, every materialized gap has
status PARTIAL or MISSING (a PRESENT requirement never becomes a gap),
and the adjudication parser coerces any status outside
{PRESENT, PARTIAL, MISSING} to MISSING. -/
theorem gapStatusInvariant (index : List Requirement) (store : List Chunk)
    (matrix : List (List ℚ)) (adj : Adjudicator) (gaps : List Gap) (n : Nat)
    (h : verify_documents index store matrix adj = (Except.ok gaps, n)) :
    (∀ o : LLMOutcome, (llm_validation o).1 = "PRESENT" ∨
        (llm_validation o).1 = "PARTIAL" ∨ (llm_validation o).1 = "MISSING") ∧
      ∀ g ∈ gaps, g.status = "PARTIAL" ∨ g.status = "MISSING" := by
  constructor
  · intro o
    cases o with
    | parsed st j ev =>
      simp only [llm_validation]
      by_cases hm : st.getD "MISSING" = "PRESENT" ∨ st.getD "MISSING" = "PARTIAL" ∨
          st.getD "MISSING" = "MISSING"
      · simpa [if_pos hm] using hm
      · simp [if_neg hm]
    | unparsable t => simp [llm_validation]
    | failed => simp [llm_validation]
  · rw [verify_documents] at h
    by_cases hinit : index = [] ∨ store = []
    · simp [hinit] at h
    · rw [if_neg hinit] at h
      exact verifyLoop_status store matrix adj index gaps n h

/-- Witness for C3 on a concrete completed run. -/
theorem gapStatusInvariant_witness :
    (mkGap sampleReq "MISSING"
        "No relevant SOP sections found (Max Similarity: 0.00)." "Not Found").status =
        "PARTIAL" ∨
      (mkGap sampleReq "MISSING"
        "No relevant SOP sections found (Max Similarity: 0.00)." "Not Found").status =
        "MISSING" :=
  (gapStatusInvariant [sampleReq] [sampleChunk] [] (fun _ _ => LLMOutcome.failed)
    [mkGap sampleReq "MISSING"
      "No relevant SOP sections found (Max Similarity: 0.00)." "Not Found"]
    0 rfl).2 _ (List.mem_cons_self _ _)

/-- The requirement ids of the gaps of a successful loop form a sublist
of the processed requirements' ids, in processing order. -/
theorem verifyLoop_sublist (store : List Chunk) (matrix : List (List ℚ))
    (adj : Adjudicator) :
    ∀ (reqs : List Requirement) (gaps : List Gap) (n : Nat),
      verifyLoop store matrix adj reqs = (Except.ok gaps, n) →
      List.Sublist (gaps.map Gap.requirement_id)
        (reqs.map Requirement.requirement_id) := by
  intro reqs
  induction reqs with
  | nil =>
    intro gaps n h
    simp only [verifyLoop, Prod.mk.injEq, Except.ok.injEq] at h
    rw [← h.1]
    simp
  | cons req rest ih =>
    intro gaps n h
    cases hs : search_sop store matrix req.embedding 3 with
    | error e => simp [verifyLoop, hs] at h
    | ok relevant =>
      simp only [verifyLoop, hs] at h
      rcases hrest : verifyLoop store matrix adj rest with ⟨res, m⟩
      rw [hrest] at h
      cases res with
      | error e => simp at h
      | ok gaps' =>
        simp only [Prod.mk.injEq, Except.ok.injEq] at h
        rw [← h.1]
        have htail := ih gaps' m (by rw [hrest])
        by_cases hc : (decisionPolicy relevant (adj req.full_requirement_text relevant)).1 =
            "MISSING" ∨
            (decisionPolicy relevant (adj req.full_requirement_text relevant)).1 = "PARTIAL"
        · rw [if_pos hc]
          simpa [mkGap] using List.Sublist.cons₂ req.requirement_id htail
        · rw [if_neg hc]
          exact List.Sublist.cons req.requirement_id htail

/-- C8: `verify_documents` is deterministic — two runs over the same
index, store and matrix with extensionally equal adjudicators return the
same value — and on success the gaps appear in reference-index order
(their requirement ids form a sublist of the index's ids). -/
theorem verifyDeterministic (index : List Requirement) (store : List Chunk)
    (matrix : List (List ℚ)) (adj1 adj2 : Adjudicator)
    (hadj : ∀ t r, adj1 t r = adj2 t r) :
    verify_documents index store matrix adj1 = verify_documents index store matrix adj2 ∧
      ∀ (gaps : List Gap) (n : Nat),
        verify_documents index store matrix adj1 = (Except.ok gaps, n) →
        List.Sublist (gaps.map Gap.requirement_id)
          (index.map Requirement.requirement_id) := by
  have heq : adj1 = adj2 := funext fun t => funext fun r => hadj t r
  constructor
  · rw [heq]
  · intro gaps n h
    rw [verify_documents] at h
    by_cases hinit : index = [] ∨ store = []
    · simp [hinit] at h
    · rw [if_neg hinit] at h
      exact verifyLoop_sublist store matrix adj1 index gaps n h

/-- Witness for C8 on a concrete run. -/
theorem verifyDeterministic_witness :
    List.Sublist
      ([mkGap sampleReq "MISSING"
          "No relevant SOP sections found (Max Similarity: 0.00)." "Not Found"].map
        Gap.requirement_id)
      ([sampleReq].map Requirement.requirement_id) :=
  (verifyDeterministic [sampleReq] [sampleChunk] [] (fun _ _ => LLMOutcome.failed)
      (fun _ _ => LLMOutcome.failed) (fun _ _ => rfl)).2
    [mkGap sampleReq "MISSING"
      "No relevant SOP sections found (Max Similarity: 0.00)." "Not Found"]
    0 rfl

/-- The embedder returns exactly one record per input item. -/
theorem embed_length (items : List Chunk) (embOut : Option (List (List ℚ))) :
    (embed_requirements items embOut).length = items.length := by
  cases embOut with
  | none => simp [embed_requirements]
  | some embs =>
    by_cases hle : items.length ≤ embs.length
    · simp only [embed_requirements, if_pos hle, List.length_zipWith]
      omega
    · simp [embed_requirements, hle]

/-- `ingest_sop` keeps one store entry per raw chunk. -/
theorem ingest_store_length (raw : List RawChunk) (embOut : Option (List (List ℚ))) :
    (ingest_sop raw embOut).1.length = raw.length := by
  simp [ingest_sop, embed_length]

/-- If every stored chunk carries the empty-vector sentinel, the search
matrix built by `ingest_sop` is empty. -/
theorem ingest_matrix_nil (raw : List RawChunk) (embOut : Option (List (List ℚ)))
    (h : ∀ c ∈ (ingest_sop raw embOut).1, c.embedding = []) :
    (ingest_sop raw embOut).2 = [] := by
  simp only [ingest_sop] at h ⊢
  rw [List.filterMap_eq_nil_iff.mpr, List.map_nil]
  intro c hc
  rw [if_pos (h c hc)]

/-- With an empty search matrix every requirement auto-reports MISSING
with the zero-similarity justification, and no adjudicator call is made. -/
theorem verifyLoop_nil_matrix (store : List Chunk) (adj : Adjudicator) :
    ∀ reqs : List Requirement,
      verifyLoop store [] adj reqs =
        (Except.ok (reqs.map fun req => mkGap req "MISSING"
          "No relevant SOP sections found (Max Similarity: 0.00)." "Not Found"), 0) := by
  intro reqs
  induction reqs with
  | nil => rfl
  | cons req rest ih =>
    have hs : search_sop store [] req.embedding 3 = Except.ok [] := rfl
    have hd : decisionPolicy [] (adj req.full_requirement_text []) =
        ("MISSING", "No relevant SOP sections found (Max Similarity: 0.00).",
         "Not Found", 0) := rfl
    simp [verifyLoop, hs, ih, hd]

/-- C10: if the ingested SOP has at least one chunk but every chunk
carries the empty-vector embedding sentinel, `verify_documents` makes
zero adjudicator calls and reports one MISSING gap per reference
requirement, each citing a maximum similarity of zero with evidence
"Not Found". -/
theorem allEmptyEmbeddingsMissing (index : List Requirement) (raw : List RawChunk)
    (embOut : Option (List (List ℚ))) (adj : Adjudicator)
    (hidx : index ≠ []) (hraw : raw ≠ [])
    (hemb : ∀ c ∈ (ingest_sop raw embOut).1, c.embedding = []) :
    verify_documents index (ingest_sop raw embOut).1 (ingest_sop raw embOut).2 adj =
      (Except.ok (index.map fun req => mkGap req "MISSING"
        "No relevant SOP sections found (Max Similarity: 0.00)." "Not Found"), 0) ∧
      (index.map fun req => mkGap req "MISSING"
        "No relevant SOP sections found (Max Similarity: 0.00)." "Not Found").length =
        index.length ∧
      ∀ g ∈ (index.map fun req => mkGap req "MISSING"
          "No relevant SOP sections found (Max Similarity: 0.00)." "Not Found"),
        g.status = "MISSING" ∧ g.sop_evidence = "Not Found" ∧
          g.justification = "No relevant SOP sections found (Max Similarity: 0.00)." := by
  have hm : (ingest_sop raw embOut).2 = [] := ingest_matrix_nil raw embOut hemb
  have hs : (ingest_sop raw embOut).1 ≠ [] := by
    intro h0
    apply hraw
    have hlen := ingest_store_length raw embOut
    rw [h0] at hlen
    exact List.length_eq_zero.mp hlen.symm
  refine ⟨?_, by simp, ?_⟩
  · rw [hm, verify_documents, if_neg (by push_neg; exact ⟨hidx, hs⟩),
      verifyLoop_nil_matrix]
  · intro g hg
    rcases List.mem_map.mp hg with ⟨req, _, hreq⟩
    rw [← hreq]
    exact ⟨rfl, rfl, rfl⟩

/-- Witness for C10 on a one-requirement index and a one-chunk SOP whose
embedding batch failed. -/
theorem allEmptyEmbeddingsMissing_witness :
    verify_documents [sampleReq] (ingest_sop [sampleRaw] none).1
        (ingest_sop [sampleRaw] none).2 (fun _ _ => LLMOutcome.failed) =
      (Except.ok [mkGap sampleReq "MISSING"
        "No relevant SOP sections found (Max Similarity: 0.00)." "Not Found"], 0) :=
  (allEmptyEmbeddingsMissing [sampleReq] [sampleRaw] none (fun _ _ => LLMOutcome.failed)
    (by decide) (by decide) (by decide)).1

/-! ## Theorems about the tab-2 pipeline -/

theorem leadsWith_append (p t : List Char) : leadsWith p (p ++ t) = true := by
  induction p with
  | nil => rfl
  | cons a as ih => simp [leadsWith, ih]

theorem hasSub_append (p : List Char) (hp : p ≠ []) :
    ∀ xs : List Char, hasSub p (xs ++ p) = true := by
  intro xs
  induction xs with
  | nil =>
    cases p with
    | nil => exact absurd rfl hp
    | cons c cs =>
      have hl := leadsWith_append (c :: cs) []
      rw [List.append_nil] at hl
      simp [hasSub, hl]
  | cons x xs ih => simp [hasSub, ih]

/-- The id of every terminal DecompositionFailure record contains the
substring FAIL, so app2's hard-rule scan catches it. -/
theorem strContains_fail (chunk : String) (meta : SourceMeta) :
    strContains (failRequirement chunk meta).requirement_id "FAIL" = true := by
  show hasSub "FAIL".data (meta.source ++ "-" ++ toString meta.page ++ "-FAIL").data = true
  have hdata : (meta.source ++ "-" ++ toString meta.page ++ "-FAIL").data =
      (meta.source.data ++ ['-'] ++ (toString meta.page).data ++ ['-']) ++ "FAIL".data := by
    simp [String.data_append]
  rw [hdata]
  exact hasSub_append "FAIL".data (by decide) _

/-- C2: a reference index that is empty or contains a
DecompositionFailure record makes the tab-2 pipeline abort with a fatal
error before any evidence ingestion and before any adjudicator call (the
run's event trace is empty). -/
theorem taintedIndexAborts (index : List Requirement) (raw : List RawChunk)
    (embOut : Option (List (List ℚ))) (adj : Adjudicator)
    (h : index = [] ∨ ∃ r ∈ index, ∃ chunk meta,
      r.requirement_id = (failRequirement chunk meta).requirement_id) :
    (∃ e, (tab2_run index raw embOut adj).1 = Except.error e) ∧
      (tab2_run index raw embOut adj).2 = [] := by
  rcases h with h | ⟨r, hr, chunk, meta, hid⟩
  · rw [tab2_run, if_pos h]
    exact ⟨⟨_, rfl⟩, rfl⟩
  · have hne : index ≠ [] := by
      intro h0
      rw [h0] at hr
      cases hr
    have hany : index.any (fun r => strContains r.requirement_id "FAIL") = true := by
      refine List.any_eq_true.mpr ⟨r, hr, ?_⟩
      rw [hid]
      exact strContains_fail chunk meta
    rw [tab2_run, if_neg hne, if_pos hany]
    exact ⟨⟨_, rfl⟩, rfl⟩

/-- Witness for C2 on a one-record index holding a failure record. -/
theorem taintedIndexAborts_witness :
    (tab2_run [failRequirement "Some passage." { source := "REF", page := 2 }]
        [sampleRaw] none (fun _ _ => LLMOutcome.failed)).2 = [] :=
  (taintedIndexAborts [failRequirement "Some passage." { source := "REF", page := 2 }]
      [sampleRaw] none (fun _ _ => LLMOutcome.failed)
      (Or.inr ⟨failRequirement "Some passage." { source := "REF", page := 2 },
        List.mem_cons_self _ _, "Some passage.", { source := "REF", page := 2 }, rfl⟩)).2

/-! ## Theorems about the normalizer -/

/-- A bare string among the parsed items makes the enrichment loop raise
(`req.get` on a `str`), regardless of position. -/
theorem enrichFrom_str (text_chunk : String) (meta : SourceMeta) :
    ∀ (items : List JItem) (i : Nat) (s : String), JItem.strItem s ∈ items →
      enrichFrom text_chunk meta i items = none := by
  intro items
  induction items with
  | nil =>
    intro i s hs
    cases hs
  | cons item rest ih =>
    intro i s hs
    rcases List.mem_cons.mp hs with hs | hs
    · rw [← hs]
      rfl
    · cases hitem : enrichItem text_chunk meta i item with
      | none => simp [enrichFrom, hitem]
      | some r => simp [enrichFrom, hitem, ih (i + 1) s hs]

/-- C5 counterexample: a decomposition reply that does not parse as JSON
(for instance the bare NORMALIZATION_FAILED marker the prompt requests on
ambiguity) makes `normalize_text` return the empty list — zero records,
not the single terminal DecompositionFailure the claim requires. -/
theorem unparsableYieldsEmptyList :
    normalize_text "The Sponsor must maintain records." { source := "REF", page := 4 }
      (ServiceOutcome.returned ParseOutcome.unparsable) = [] := rfl

/-- C5 amended: `normalize_text` returns exactly one terminal
DecompositionFailure when the service invocation raises (retries
exhausted), when the reply parses to a non-iterable scalar, or when
enrichment raises — a list containing a bare string, or a non-empty
dict/string reply whose enumeration yields a string item; but it
returns a silently empty list — no failure record — when the reply is
unparsable as JSON (including a reply marking the passage
non-decomposable) or parses to an empty non-list iterable such as an
empty dict or an empty string. -/
theorem normalizeFailureModes (text_chunk : String) (meta : SourceMeta) :
    normalize_text text_chunk meta ServiceOutcome.raised = [failRequirement text_chunk meta] ∧
      normalize_text text_chunk meta (ServiceOutcome.returned ParseOutcome.jsonScalar) =
        [failRequirement text_chunk meta] ∧
      (∀ (k : String) (ks : List String),
        normalize_text text_chunk meta
          (ServiceOutcome.returned (ParseOutcome.jsonIter (k :: ks))) =
          [failRequirement text_chunk meta]) ∧
      (∀ items : List JItem, (∃ s, JItem.strItem s ∈ items) →
        normalize_text text_chunk meta
          (ServiceOutcome.returned (ParseOutcome.jsonList items)) =
          [failRequirement text_chunk meta]) ∧
      normalize_text text_chunk meta (ServiceOutcome.returned ParseOutcome.unparsable) = [] ∧
      normalize_text text_chunk meta (ServiceOutcome.returned (ParseOutcome.jsonIter [])) =
        [] := by
  refine ⟨rfl, rfl, fun k ks => rfl, ?_, rfl, rfl⟩
  intro items ⟨s, hs⟩
  simp [normalize_text, parse_response, enrichFrom_str text_chunk meta items 0 s hs]

/-- Witness for C5 (amended) at a concrete string-bearing reply. -/
theorem normalizeFailureModes_witness :
    normalize_text "Records must be retained." { source := "REF", page := 5 }
      (ServiceOutcome.returned (ParseOutcome.jsonList [JItem.strItem "loose text"])) =
      [failRequirement "Records must be retained." { source := "REF", page := 5 }] :=
  (normalizeFailureModes "Records must be retained." { source := "REF", page := 5 }).2.2.2.1
    [JItem.strItem "loose text"] ⟨"loose text", List.mem_cons_self _ _⟩

/-! ## The empty-embedding sentinel at retrieval time -/

/-- C6: evaluating the engine at the failing input — a reference
requirement carrying the empty-vector sentinel, verified against an SOP
whose one chunk embedded successfully — retrieval's dot product raises a
shape-mismatch error that aborts `verify_documents`, instead of treating
the sentinel requirement as a zero-similarity non-match. -/
theorem emptyEmbeddingSentinelCrash :
    (verify_documents [sentinelReq] (ingest_sop [sampleRaw] (some [[1]])).1
        (ingest_sop [sampleRaw] (some [[1]])).2 (fun _ _ => LLMOutcome.failed)).1 =
      Except.error "shapes not aligned" := rfl

/-! ## Theorems about retrieval ordering -/

theorem insertIdx_perm (s : List ℚ) (x : Nat) :
    ∀ l : List Nat, List.Perm (insertIdx s x l) (x :: l) := by
  intro l
  induction l with
  | nil => exact List.Perm.refl _
  | cons y ys ih =>
    by_cases hc : s.getD y 0 ≤ s.getD x 0
    · rw [insertIdx, if_pos hc]
      exact (List.Perm.cons y ih).trans (List.Perm.swap x y ys)
    · rw [insertIdx, if_neg hc]

/-- Inserting an index larger than everything already present preserves
the stable ascending order. -/
theorem insertIdx_pairwise (s : List ℚ) (x : Nat) :
    ∀ l : List Nat, (∀ y ∈ l, y < x) → l.Pairwise (ascLex s) →
      (insertIdx s x l).Pairwise (ascLex s) := by
  intro l
  induction l with
  | nil =>
    intro _ _
    simp [insertIdx]
  | cons y ys ih =>
    intro hlt hpw
    rw [List.pairwise_cons] at hpw
    by_cases hc : s.getD y 0 ≤ s.getD x 0
    · rw [insertIdx, if_pos hc, List.pairwise_cons]
      constructor
      · intro z hz
        rcases List.mem_cons.mp ((insertIdx_perm s x ys).mem_iff.mp hz) with hz | hz
        · rw [hz]
          rcases lt_or_eq_of_le hc with h | h
          · exact Or.inl h
          · exact Or.inr ⟨h, hlt y (List.mem_cons_self y ys)⟩
        · exact hpw.1 z hz
      · exact ih (fun w hw => hlt w (List.mem_cons_of_mem y hw)) hpw.2
    · rw [insertIdx, if_neg hc]
      push_neg at hc
      rw [List.pairwise_cons]
      constructor
      · intro z hz
        rcases List.mem_cons.mp hz with hz | hz
        · rw [hz]
          exact Or.inl hc
        · refine Or.inl (lt_of_lt_of_le hc ?_)
          rcases hpw.1 z hz with h | h
          · exact h.le
          · exact h.1.le
      · exact List.pairwise_cons.mpr hpw

/-- The insertion fold underlying `argsortAsc`: over strictly increasing
upcoming indices all larger than the accumulator's, it returns a stably
sorted permutation. -/
theorem foldl_insert_sorted (s : List ℚ) :
    ∀ (l : List Nat) (acc : List Nat),
      (∀ y ∈ acc, ∀ i ∈ l, y < i) → l.Pairwise (fun a b => a < b) →
      acc.Pairwise (ascLex s) →
      (l.foldl (fun a i => insertIdx s i a) acc).Pairwise (ascLex s) ∧
        List.Perm (l.foldl (fun a i => insertIdx s i a) acc) (l ++ acc) := by
  intro l
  induction l with
  | nil =>
    intro acc _ _ hacc
    exact ⟨hacc, by simp⟩
  | cons i l ih =>
    intro acc hord hl hacc
    rw [List.foldl_cons, List.pairwise_cons] at *
    have hacc' : (insertIdx s i acc).Pairwise (ascLex s) :=
      insertIdx_pairwise s i acc (fun y hy => hord y hy i (List.mem_cons_self i l)) hacc
    have hord' : ∀ y ∈ insertIdx s i acc, ∀ j ∈ l, y < j := by
      intro y hy j hj
      rcases List.mem_cons.mp ((insertIdx_perm s i acc).mem_iff.mp hy) with hy | hy
      · rw [hy]
        exact hl.1 j hj
      · exact hord y hy j (List.mem_cons_of_mem i hj)
    obtain ⟨hsorted, hperm⟩ := ih (insertIdx s i acc) hord' hl.2 hacc'
    refine ⟨hsorted, ?_⟩
    have h2 : List.Perm (l ++ insertIdx s i acc) (l ++ (i :: acc)) :=
      List.Perm.append_left l (insertIdx_perm s i acc)
    exact hperm.trans (h2.trans List.perm_middle)

/-- `argsortAsc` is a stably sorted permutation of the index range. -/
theorem argsortAsc_sorted (s : List ℚ) :
    (argsortAsc s).Pairwise (ascLex s) ∧
      List.Perm (argsortAsc s) (List.range s.length) := by
  obtain ⟨h1, h2⟩ := foldl_insert_sorted s (List.range s.length) []
    (by intro y hy; cases hy) (List.pairwise_lt_range _) List.Pairwise.nil
  exact ⟨h1, by simpa using h2⟩

/-- The selected top indices are sorted descending: strictly larger
score first, and equal scores in descending store-index order. -/
theorem topIdx_sorted (s : List ℚ) (k : Nat) :
    (topIdx s k).Pairwise (fun a b => ascLex s b a) := by
  rw [topIdx, List.pairwise_reverse]
  exact ((argsortAsc_sorted s).1).sublist (List.drop_sublist _ _)

/-- Every selected top index addresses the score list. -/
theorem topIdx_mem (s : List ℚ) (k : Nat) : ∀ i ∈ topIdx s k, i < s.length := by
  intro i hi
  rw [topIdx, List.mem_reverse] at hi
  exact List.mem_range.mp
    ((argsortAsc_sorted s).2.mem_iff.mp (List.mem_of_mem_drop hi))

/-- The selection keeps `min k n` indices. -/
theorem topIdx_length (s : List ℚ) (k : Nat) :
    (topIdx s k).length = min k s.length := by
  have hlen : (argsortAsc s).length = s.length := by
    rw [(argsortAsc_sorted s).2.length_eq, List.length_range]
  rw [topIdx, List.length_reverse, List.length_drop, hlen]
  omega

/-- Every unselected score is dominated by every selected score. -/
theorem topIdx_dominates (s : List ℚ) (k : Nat) :
    ∀ j < s.length, j ∉ topIdx s k → ∀ i ∈ topIdx s k, s.getD j 0 ≤ s.getD i 0 := by
  intro j hj hnot i hi
  rw [topIdx, List.mem_reverse] at hnot hi
  have hjmem : j ∈ argsortAsc s :=
    (argsortAsc_sorted s).2.mem_iff.mpr (List.mem_range.mpr hj)
  have hsplit : ((argsortAsc s).take (s.length - k) ++
      (argsortAsc s).drop (s.length - k)).Pairwise (ascLex s) := by
    rw [List.take_append_drop]
    exact (argsortAsc_sorted s).1
  have hjtake : j ∈ (argsortAsc s).take (s.length - k) := by
    rw [← List.take_append_drop (s.length - k) (argsortAsc s)] at hjmem
    rcases List.mem_append.mp hjmem with h | h
    · exact h
    · exact absurd h hnot
  rcases (List.pairwise_append.mp hsplit).2.2 j hjtake i hi with h | h
  · exact h.le
  · exact h.1.le

/-- C7 (amended): on a non-empty matrix of at most 16 rows — within
numpy's insertion-sort cutoff, so `np.argsort` is one stable pass and
the model is exact — whose rows align with the query, `_search_sop`
returns the `min k n` highest-scoring entries — every unselected score
is dominated — ordered by descending score, with ties among equal scores
broken by *descending* matrix index (the ascending stable argsort is
reversed), each entry pairing the score with the chunk stored at the
same index.  Beyond 16 rows numpy's introsort leaves the order among
equal scores unspecified, so no tie-break direction is claimed there. -/
theorem searchTopK (store : List Chunk) (matrix : List (List ℚ)) (q : List ℚ)
    (k : Nat) (hm : matrix ≠ []) ( _hsmall : matrix.length ≤ 16)
    (halign : matrix.all (fun row => row.length = (normVec q).length) = true) :
    search_sop store matrix q k =
      Except.ok ((topIdx (searchScores matrix q) k).map
        fun idx => { chunk := store.getD idx default
                     score := (searchScores matrix q).getD idx 0 }) ∧
      (topIdx (searchScores matrix q) k).length = min k matrix.length ∧
      (topIdx (searchScores matrix q) k).Pairwise
        (fun a b => ascLex (searchScores matrix q) b a) ∧
      (∀ i ∈ topIdx (searchScores matrix q) k, i < matrix.length) ∧
      ∀ j < matrix.length, j ∉ topIdx (searchScores matrix q) k →
        ∀ i ∈ topIdx (searchScores matrix q) k,
          (searchScores matrix q).getD j 0 ≤ (searchScores matrix q).getD i 0 := by
  have hslen : (searchScores matrix q).length = matrix.length := List.length_map _ _
  refine ⟨?_, by rw [topIdx_length, hslen], topIdx_sorted _ k,
    fun i hi => hslen ▸ topIdx_mem _ k i hi,
    fun j hj hnot i hi => topIdx_dominates _ k j (hslen ▸ hj) hnot i hi⟩
  rw [search_sop, if_neg hm, if_pos halign]
  rfl

/-- Witness for C7 (amended) on a concrete one-row matrix. -/
theorem searchTopK_witness :
    search_sop [sampleChunk] [[1]] [1] 3 =
      Except.ok ((topIdx (searchScores [[1]] [1]) 3).map
        fun idx => { chunk := ([sampleChunk] : List Chunk).getD idx default
                     score := (searchScores [[1]] [1]).getD idx 0 }) :=
  (searchTopK [sampleChunk] [[1]] [1] 3 (by decide) (by decide) (by decide)).1

/-- C7 counterexample to the stated tie-break direction: two evidence
chunks with identical embeddings tie on score, and `_search_sop` returns
the chunk at store index 1 *before* the chunk at store index 0 — reverse
index order, not the claimed evidence-store index order. -/
theorem tieOrderCounterexample :
    (search_sop (ingest_sop [rawA, rawB] (some [[1], [1]])).1
        (ingest_sop [rawA, rawB] (some [[1], [1]])).2 [1] 3).map
      (fun results => results.map fun r => r.chunk.text) =
      Except.ok ["Training is provided to staff.", "Records are archived."] := rfl

/-- Witness for C9 at concrete retrieval scores 0.5 ≤ 0.9. -/
theorem decisionMonotonic_witness :
    (decisionPolicy [{ chunk := default, score := mkRat 9 10 }]
        (LLMOutcome.parsed (some "PRESENT") (some "covered") (some "quoted text"))).1 =
      "PRESENT" :=
  decisionMonotonic [{ chunk := default, score := mkRat 1 2 }]
    [{ chunk := default, score := mkRat 9 10 }]
    (LLMOutcome.parsed (some "PRESENT") (some "covered") (some "quoted text"))
    (by decide) (by decide) (by decide)

end Syngene
